import Mathlib

/-!
Shallow embedding of `src/xml_reader.rs` (crate `rjs-driver`).

The Rust module drives a streaming XML reader (`quick_xml`); here the reader
itself is abstracted as a list of already-delivered events (`XmlEvent`), and
the module's own logic — attribute lookup, record builders, path tracking and
the walker loop of `XmlData::read_from_xml` — is translated definition by
definition.

Conventions of the embedding:
* Rust `Result<T, Error>` together with the possibility of a panic
  (`unwrap()` on invalid UTF-8) is modelled by `PResult`.
* Attribute keys and element names are Lean `String`s (byte-for-byte equality
  of UTF-8 encodings coincides with `String` equality); attribute *values*
  are kept as raw byte lists because `find_attribute` decodes them with
  `String::from_utf8(..).unwrap()`.
* Machine integers (`u16`, the `u8` octets of an IP) are `Nat` with explicit
  range checks where the Rust code checks them.
* `usize` depth arithmetic is `Nat` with truncated subtraction; this is exact
  for well-formed event streams (an `End` event only arrives with at least
  one element open).
-/

/-- `ConfigError` of `xml_reader.rs`: the located configuration errors.
(The Rust field `to` of `ParseError` is spelled `to_` here: `to` is a reserved
token in Lean.) -/
inductive ConfigError where
  | parseError (input : String) (to_ : String) (cause : String)
  | missingAttribute (name : String)
  | invalidValue (name : String) (value : String)
  deriving DecidableEq, Repr

/-- `Error` of `xml_reader.rs`: IO error, XML syntax error, or a configuration
error with a location string. Error payloads of the external libraries are
kept as their display strings. -/
inductive Error where
  | ioError (msg : String)
  | xmlError (msg : String)
  | configError (error : ConfigError) (location : String)
  deriving DecidableEq, Repr

/-- `impl From<ConfigError> for Error`: wrap with the default location. -/
def ConfigError.toError (c : ConfigError) : Error :=
  Error.configError c "unknown location"

/-- Outcome of a fallible Rust computation: success, an `Err` value, or a
panic (`unwrap()` of a failed `Result`). -/
inductive PResult (α : Type) where
  | panic
  | err (e : Error)
  | ok (a : α)
  deriving DecidableEq, Repr

/-- The `?` operator / monadic sequencing on `PResult`. -/
def PResult.bind {α β : Type} : PResult α → (α → PResult β) → PResult β
  | .panic, _ => .panic
  | .err e, _ => .err e
  | .ok a, f => f a

@[simp] theorem PResult.bind_ok {α β : Type} (a : α) (f : α → PResult β) :
    PResult.bind (.ok a) f = f a := rfl

@[simp] theorem PResult.bind_err {α β : Type} (e : Error) (f : α → PResult β) :
    PResult.bind (.err e) f = .err e := rfl

@[simp] theorem PResult.bind_panic {α β : Type} (f : α → PResult β) :
    PResult.bind .panic f = .panic := rfl

/-- Whether `b` is a UTF-8 continuation byte `0x80 ‥ 0xBF`. -/
def utf8Cont (b : Nat) : Bool := 0x80 ≤ b && b < 0xC0

/-- Decoder of UTF-8 byte sequences into characters, exactly the validation
performed by Rust's `String::from_utf8` (RFC 3629: overlong forms, surrogate
code points and values above `0x10FFFF` are rejected). `none` = invalid. -/
def utf8DecodeChars : List Nat → Option (List Char)
  | [] => some []
  | b :: r =>
    if b < 0x80 then
      (utf8DecodeChars r).map (Char.ofNat b :: ·)
    else if b < 0xC2 then
      none
    else if b < 0xE0 then
      match r with
      | c1 :: r1 =>
        if utf8Cont c1 then
          (utf8DecodeChars r1).map (Char.ofNat ((b - 0xC0) * 0x40 + (c1 - 0x80)) :: ·)
        else none
      | [] => none
    else if b < 0xF0 then
      match r with
      | c1 :: c2 :: r2 =>
        if utf8Cont c1 && utf8Cont c2 &&
            (b ≠ 0xE0 || 0xA0 ≤ c1) && (b ≠ 0xED || c1 < 0xA0) then
          (utf8DecodeChars r2).map
            (Char.ofNat ((b - 0xE0) * 0x1000 + (c1 - 0x80) * 0x40 + (c2 - 0x80)) :: ·)
        else none
      | _ => none
    else if b < 0xF5 then
      match r with
      | c1 :: c2 :: c3 :: r3 =>
        if utf8Cont c1 && utf8Cont c2 && utf8Cont c3 &&
            (b ≠ 0xF0 || 0x90 ≤ c1) && (b ≠ 0xF4 || c1 < 0x90) then
          (utf8DecodeChars r3).map
            (Char.ofNat ((b - 0xF0) * 0x40000 + (c1 - 0x80) * 0x1000 +
              (c2 - 0x80) * 0x40 + (c3 - 0x80)) :: ·)
        else none
      | _ => none
    else none

/-- `String::from_utf8` on a byte vector. -/
def utf8Decode (bs : List Nat) : Option String :=
  (utf8DecodeChars bs).map String.mk

/-- The UTF-8 bytes of an ASCII string (used only to write concrete inputs). -/
def asciiBytes (s : String) : List Nat := s.toList.map Char.toNat

/-- One item of quick_xml's attribute iterator: `Result<Attribute, AttrError>`.
A well-formed item carries the key (as text; keys are compared byte-for-byte
with an ASCII name, which for UTF-8 data is string equality) and the raw value
bytes; a malformed one carries the error's display string. -/
inductive AttrItem where
  | ok (key : String) (value : List Nat)
  | err (msg : String)
  deriving DecidableEq, Repr

/-- `find_attribute` of `xml_reader.rs`: scan the attribute iterator with
`find_map`, keeping the first `Ok` item whose key equals `data`; decode its
value with `String::from_utf8(..).unwrap()` (panic on invalid UTF-8); report
`MissingAttribute` when no item matches. -/
def find_attribute (attrs : List AttrItem) (data : String) : PResult String :=
  let attr := attrs.findSome? fun i =>
    match i with
    | .ok key value => if key = data then some value else none
    | .err _ => none
  match attr with
  | some value =>
    match utf8Decode value with
    | some s => .ok s
    | none => .panic
  | none => .err (ConfigError.missingAttribute data).toError

/-! ## Typed-value parsers (`parse!` macro targets: `u16`, `IpAddr`) -/

/-- `str::parse::<u16>` digit loop: sequential `to_digit`/checked-arithmetic
over the remaining characters, with Rust's `ParseIntError` display strings. -/
def parseU16Go : List Char → Nat → Except String Nat
  | [], acc => .ok acc
  | c :: rest, acc =>
    if c.isDigit then
      let acc' := acc * 10 + (c.toNat - 48)
      if acc' > 65535 then .error "number too large to fit in target type"
      else parseU16Go rest acc'
    else .error "invalid digit found in string"

/-- `str::parse::<u16>`: empty input, an optional leading `+` (a `-` is not a
sign for an unsigned target and falls through as an invalid digit), then the
digit loop. The error is the `ParseIntError`'s display string. -/
def parseU16 (s : String) : Except String Nat :=
  let cs := s.toList
  if cs.isEmpty then .error "cannot parse integer from empty string"
  else
    let ds := match cs with
      | '+' :: rest => rest
      | _ => cs
    if ds.isEmpty then .error "invalid digit found in string"
    else parseU16Go ds 0

/-- The value of a digit in the given radix (`char::to_digit`). -/
def digitIn (radix : Nat) (c : Char) : Option Nat :=
  let v :=
    if '0' ≤ c ∧ c ≤ '9' then some (c.toNat - 48)
    else if 'a' ≤ c ∧ c ≤ 'f' then some (c.toNat - 87)
    else if 'A' ≤ c ∧ c ≤ 'F' then some (c.toNat - 55)
    else none
  match v with
  | some n => if n < radix then some n else none
  | none => none

/-- The greedy digit run taken by `Parser::read_number`. -/
def readDigits (radix : Nat) : List Char → (List Nat × List Char)
  | [] => ([], [])
  | c :: rest =>
    match digitIn radix c with
    | some d =>
      let (ds, r) := readDigits radix rest
      (d :: ds, r)
    | none => ([], c :: rest)

/-- `Parser::read_number(radix, Some(maxDigits), allowZeroPrefix)` of
`core::net::parser`, for a target with maximal value `cap` (checked
arithmetic): greedily read digits; fail on no digits, on more than
`maxDigits` digits, on a forbidden leading zero, or on overflow. Consumes
nothing on failure (atomic). -/
def readNumber (radix maxDigits cap : Nat) (allowZeroPrefix : Bool)
    (s : List Char) : Option (Nat × List Char) :=
  let (ds, rest) := readDigits radix s
  if ds.isEmpty then none
  else if ds.length > maxDigits then none
  else if !allowZeroPrefix && ds.head? = some 0 && ds.length > 1 then none
  else
    let v := ds.foldl (fun acc d => acc * radix + d) 0
    if v > cap then none
    else some (v, rest)

/-- `Parser::read_given_char`. -/
def readChar (c : Char) : List Char → Option (List Char)
  | x :: rest => if x = c then some rest else none
  | [] => none

/-- `Parser::read_ipv4_addr`: four octets (decimal, at most three digits, no
leading zero, ≤ 255) separated by `.`; atomic. -/
def readIpv4 (s : List Char) : Option ((Nat × Nat × Nat × Nat) × List Char) :=
  match readNumber 10 3 255 false s with
  | none => none
  | some (a, s1) =>
    match readChar '.' s1 with
    | none => none
    | some s2 =>
      match readNumber 10 3 255 false s2 with
      | none => none
      | some (b, s3) =>
        match readChar '.' s3 with
        | none => none
        | some s4 =>
          match readNumber 10 3 255 false s4 with
          | none => none
          | some (c, s5) =>
            match readChar '.' s5 with
            | none => none
            | some s6 =>
              match readNumber 10 3 255 false s6 with
              | none => none
              | some (d, s7) => some ((a, b, c, d), s7)

/-- The loop body of `read_groups` of `core::net::parser`, iterating slot
index `i` with `remaining` slots left: first try an embedded trailing IPv4
address when at least two slots remain, then an ordinary hexadecimal group
(`:`-separated except at index 0); stop at the first failure. Returns the
groups read, whether an IPv4 tail was read, and the rest of the input. -/
def readGroupsGo : Nat → Nat → List Nat → List Char → (List Nat × Bool × List Char)
  | 0, _, acc, s => (acc, false, s)
  | remaining + 1, i, acc, s =>
    let v4 : Option ((Nat × Nat × Nat × Nat) × List Char) :=
      if remaining ≥ 1 then
        match (if i > 0 then readChar ':' s else some s) with
        | none => none
        | some s1 => readIpv4 s1
      else none
    match v4 with
    | some ((a, b, c, d), rest) =>
      (acc ++ [a * 0x100 + b, c * 0x100 + d], true, rest)
    | none =>
      let grp : Option (Nat × List Char) :=
        match (if i > 0 then readChar ':' s else some s) with
        | none => none
        | some s1 => readNumber 16 4 0xFFFF true s1
      match grp with
      | some (g, rest) => readGroupsGo remaining (i + 1) (acc ++ [g]) rest
      | none => (acc, false, s)

/-- `read_groups(p, groups)` for a slot array of length `limit`. -/
def readGroups (limit : Nat) (s : List Char) : (List Nat × Bool × List Char) :=
  readGroupsGo limit 0 [] s

/-- `Parser::read_ipv6_addr`: a head of groups (the whole address at 8),
otherwise a mandatory `::` followed by a tail of at most `8 - (head + 1)`
groups, the gap filled with zero groups; an IPv4 tail may stand for the last
two groups but not in the head before `::`. -/
def readIpv6 (s : List Char) : Option (List Nat × List Char) :=
  let (head, headV4, rest) := readGroups 8 s
  if head.length = 8 then some (head, rest)
  else if headV4 then none
  else
    match readChar ':' rest with
    | none => none
    | some r1 =>
      match readChar ':' r1 with
      | none => none
      | some r2 =>
        let limit := 8 - (head.length + 1)
        let (tail, _, r3) := readGroups limit r2
        some (head ++ List.replicate (8 - head.length - tail.length) 0 ++ tail, r3)

/-- `std::net::IpAddr`, with `u8` octets / `u16` groups as `Nat`. -/
inductive IpAddr where
  | v4 (a b c d : Nat)
  | v6 (groups : List Nat)
  deriving DecidableEq, Repr

/-- `IpAddr::from_str` (`Parser::parse_with(read_ip_addr)`): try IPv4 first,
then IPv6; the whole input must be consumed. `none` stands for
`AddrParseError`, whose display string is `"invalid IP address syntax"`. -/
def parseIpAddr (s : String) : Option IpAddr :=
  match readIpv4 s.toList with
  | some ((a, b, c, d), rest) =>
    if rest.isEmpty then some (.v4 a b c d) else none
  | none =>
    match readIpv6 s.toList with
    | some (gs, rest) => if rest.isEmpty then some (.v6 gs) else none
    | none => none

/-- The `parse!` macro at type `u16`: `stringify!(u16)` is the `to` field,
the `ParseIntError` display string the cause. -/
def parseU16Config (i : String) : PResult Nat :=
  match parseU16 i with
  | .ok n => .ok n
  | .error msg => .err (ConfigError.parseError i "u16" msg).toError

/-- The `parse!` macro at type `IpAddr`. -/
def parseIpAddrConfig (i : String) : PResult IpAddr :=
  match parseIpAddr i with
  | some a => .ok a
  | none => .err (ConfigError.parseError i "IpAddr" "invalid IP address syntax").toError

/-! ## Records and their builders -/

/-- `Connection` of `xml_reader.rs`. -/
inductive Connection where
  | p2p
  | broadcast
  deriving DecidableEq, Repr

/-- `Rjs` of `xml_reader.rs`. -/
structure Rjs where
  prejezd : String
  ip : IpAddr
  port : Nat
  rjs_type : String
  deriving DecidableEq, Repr

/-- `DlsIP` of `xml_reader.rs` (field `alias` is spelled `alias_`: `alias` is
a reserved command name in Lean). -/
inductive DlsIP where
  | hosts (alias_ : String) (connection : Connection)
  | static (ip : IpAddr)
  deriving DecidableEq, Repr

/-- `DlsIP::from_attributes`: extract `source`; for `"HOSTS"` map the
`connection` attribute to the enum (anything else is `InvalidValue`), then
extract `alias`; for `"STATIC"` extract and parse `ip`; any other source
value is `InvalidValue{source}`. -/
def DlsIP.from_attributes (attrs : List AttrItem) : PResult DlsIP :=
  (find_attribute attrs "source").bind fun source =>
  match source with
  | "HOSTS" =>
    (find_attribute attrs "connection").bind fun c =>
    (match c with
      | "P2P" => PResult.ok Connection.p2p
      | "BROADCAST" => PResult.ok Connection.broadcast
      | i => PResult.err (ConfigError.invalidValue "connection" i).toError).bind
    fun connection =>
    (find_attribute attrs "alias").bind fun alias_ =>
    PResult.ok (DlsIP.hosts alias_ connection)
  | "STATIC" =>
    (find_attribute attrs "ip").bind fun ip =>
    (parseIpAddrConfig ip).bind fun addr =>
    PResult.ok (DlsIP.static addr)
  | i => PResult.err (ConfigError.invalidValue "source" i).toError

/-- `Rjs::from_attributes`. The Rust function first extracts the `ip` and
`port` strings with `?`, then builds the struct literal, whose fields are
evaluated in written order: extract `prejezd`, parse `ip`, parse `port`,
extract `type`. -/
def Rjs.from_attributes (attrs : List AttrItem) : PResult Rjs :=
  (find_attribute attrs "ip").bind fun ip =>
  (find_attribute attrs "port").bind fun port =>
  (find_attribute attrs "prejezd").bind fun prejezd =>
  (parseIpAddrConfig ip).bind fun ipv =>
  (parseU16Config port).bind fun portv =>
  (find_attribute attrs "type").bind fun rjs_type =>
  PResult.ok { prejezd := prejezd, ip := ipv, port := portv, rjs_type := rjs_type }

/-! ## The document walker (`XmlData::read_from_xml`) -/

/-- `XmlData` of `xml_reader.rs`: the two ordered record collections. -/
structure XmlData where
  rjss : List Rjs
  diagnet : List DlsIP
  deriving DecidableEq, Repr

/-- One event delivered by `quick_xml::Reader::read_event`, restricted to the
payloads `read_from_xml` looks at: the tag name (see the UTF-8 convention
above) and, for start / self-closing tags, the attribute iterator's items.
`readErr` is an `Err` from the reader (its display string), `other` stands
for every event kind the `match` ignores (text, comments, `End` carries no
data the code uses). The event list ending without `eof` is read as the
stream being exhausted. -/
inductive XmlEvent where
  | start (name : String) (attrs : List AttrItem)
  | endTag
  | empty (name : String) (attrs : List AttrItem)
  | eof
  | readErr (msg : String)
  | other
  deriving DecidableEq, Repr

/-- `add_location_data`: when the result is a `ConfigError`, overwrite its
location with the `/`-joined names of the non-empty path slots. -/
def add_location_data {α : Type} (res : PResult α) (path : List (Option String)) :
    PResult α :=
  match res with
  | .err (.configError e _) =>
    .err (.configError e (String.intercalate "/" (path.filterMap id)))
  | r => r

/-- The walker's mutable state: the accumulating record lists, the depth
counter and the fixed ten-slot path array. -/
structure WalkSt where
  rjss : List Rjs
  diagnet : List DlsIP
  depth : Nat
  path : List (Option String)

/-- What one iteration of the `loop` in `read_from_xml` does with its event. -/
inductive StepRes where
  | cont (st : WalkSt)
  | stop (data : XmlData)
  | fail (e : Error)
  | panicked

/-- The body of the `loop` in `XmlData::read_from_xml`, one event at a time.
`Start` records the name at the current depth (if within the ten tracked
slots) and descends; `End` ascends and clears the slot it returns to;
`Empty` records the name, descends, dispatches `rjs` / `dlsip` builders with
location stamping, and ascends *without clearing the slot*; `Eof` stops with
the accumulated data; a reader error fails with `XmlError`. -/
def stepEv (ev : XmlEvent) (st : WalkSt) : StepRes :=
  match ev with
  | .start name _attrs =>
    let path := if st.path.length > st.depth then st.path.set st.depth (some name) else st.path
    .cont { st with path := path, depth := st.depth + 1 }
  | .endTag =>
    let depth := st.depth - 1
    let path := if st.path.length > depth then st.path.set depth none else st.path
    .cont { st with depth := depth, path := path }
  | .empty name attrs =>
    let path := if st.path.length > st.depth then st.path.set st.depth (some name) else st.path
    let depth := st.depth + 1
    if name = "rjs" then
      match add_location_data (Rjs.from_attributes attrs) path with
      | .ok r => .cont { rjss := st.rjss ++ [r], diagnet := st.diagnet,
                         depth := depth - 1, path := path }
      | .err e => .fail e
      | .panic => .panicked
    else if name = "dlsip" then
      match add_location_data (DlsIP.from_attributes attrs) path with
      | .ok d => .cont { rjss := st.rjss, diagnet := st.diagnet ++ [d],
                         depth := depth - 1, path := path }
      | .err e => .fail e
      | .panic => .panicked
    else .cont { st with path := path, depth := depth - 1 }
  | .eof => .stop ⟨st.rjss, st.diagnet⟩
  | .readErr msg => .fail (Error.xmlError msg)
  | .other => .cont st

/-- The `loop` of `read_from_xml` over the remaining events. -/
def walkAux : List XmlEvent → WalkSt → PResult XmlData
  | [], st => .ok ⟨st.rjss, st.diagnet⟩
  | ev :: rest, st =>
    match stepEv ev st with
    | .cont st' => walkAux rest st'
    | .stop d => .ok d
    | .fail e => .err e
    | .panicked => .panic

/-- The walker's initial state: empty data, depth 0, ten empty path slots. -/
def initWalkSt : WalkSt := ⟨[], [], 0, List.replicate 10 none⟩

/-- `XmlData::read_from_xml`, over the event stream the reader delivers. -/
def XmlData.read_from_xml (evs : List XmlEvent) : PResult XmlData :=
  walkAux evs initWalkSt

/-! ## Helper views of the walker, used to state the properties -/

/-- Whether a `PResult` is a success. -/
def PResult.isOk {α : Type} : PResult α → Bool
  | .ok _ => true
  | _ => false

/-- The success value of a `PResult`, if any. -/
def PResult.toOption {α : Type} : PResult α → Option α
  | .ok a => some a
  | _ => none

/-- The `Rjs` record a single event contributes to the output: the built
record of a self-closing `<rjs>` whose builder succeeds, nothing otherwise. -/
def rjsOf : XmlEvent → Option Rjs
  | .empty name attrs =>
    if name = "rjs" then (Rjs.from_attributes attrs).toOption else none
  | _ => none

/-- The `DlsIP` record a single event contributes to the output. -/
def dlsipOf : XmlEvent → Option DlsIP
  | .empty name attrs =>
    if name = "dlsip" then (DlsIP.from_attributes attrs).toOption else none
  | _ => none

/-- An event a fully valid document delivers before its final `Eof`: not a
reader error, not `Eof` itself, and any self-closing `rjs` / `dlsip` element
it carries builds successfully. -/
def goodEv : XmlEvent → Bool
  | .empty name attrs =>
    if name = "rjs" then (Rjs.from_attributes attrs).isOk
    else if name = "dlsip" then (DlsIP.from_attributes attrs).isOk
    else true
  | .eof => false
  | .readErr _ => false
  | _ => true

/-- Nesting discipline of a well-formed event stream starting at depth `d`:
every `End` arrives with at least one element open (so the Rust `usize`
decrement never underflows). -/
def nestOk : List XmlEvent → Nat → Bool
  | [], _ => true
  | .start _ _ :: rest, d => nestOk rest (d + 1)
  | .endTag :: rest, d => decide (0 < d) && nestOk rest (d - 1)
  | _ :: rest, d => nestOk rest d

@[simp] theorem add_location_data_ok {α : Type} (a : α) (path : List (Option String)) :
    add_location_data (.ok a) path = .ok a := rfl


@[simp] theorem walkAux_nil (st : WalkSt) : walkAux [] st = .ok ⟨st.rjss, st.diagnet⟩ := rfl

theorem walkAux_cons (ev : XmlEvent) (rest : List XmlEvent) (st : WalkSt) :
    walkAux (ev :: rest) st =
      match stepEv ev st with
      | .cont st' => walkAux rest st'
      | .stop d => .ok d
      | .fail e => .err e
      | .panicked => .panic := rfl

/-- The path array after recording `name` at the current depth (the guarded
write shared by the `Start` and `Empty` arms). -/
def recordName (st : WalkSt) (name : String) : List (Option String) :=
  if st.path.length > st.depth then st.path.set st.depth (some name) else st.path

theorem stepEv_start (name : String) (attrs : List AttrItem) (st : WalkSt) :
    stepEv (.start name attrs) st =
      .cont { st with path := recordName st name, depth := st.depth + 1 } := rfl

/-- The path array after the `End` arm's clearing write at the new depth. -/
def clearSlot (st : WalkSt) : List (Option String) :=
  if st.path.length > st.depth - 1 then st.path.set (st.depth - 1) none else st.path

theorem stepEv_endTag (st : WalkSt) :
    stepEv .endTag st = .cont { st with depth := st.depth - 1, path := clearSlot st } := rfl

theorem stepEv_eof (st : WalkSt) : stepEv .eof st = .stop ⟨st.rjss, st.diagnet⟩ := rfl

theorem stepEv_readErr (msg : String) (st : WalkSt) :
    stepEv (.readErr msg) st = .fail (.xmlError msg) := rfl

theorem stepEv_other (st : WalkSt) : stepEv .other st = .cont st := rfl

theorem stepEv_empty_rjs (attrs : List AttrItem) (st : WalkSt) :
    stepEv (.empty "rjs" attrs) st =
      match add_location_data (Rjs.from_attributes attrs) (recordName st "rjs") with
      | .ok r => .cont ⟨st.rjss ++ [r], st.diagnet, st.depth + 1 - 1, recordName st "rjs"⟩
      | .err e => .fail e
      | .panic => .panicked := rfl

theorem stepEv_empty_dlsip (attrs : List AttrItem) (st : WalkSt) :
    stepEv (.empty "dlsip" attrs) st =
      match add_location_data (DlsIP.from_attributes attrs) (recordName st "dlsip") with
      | .ok d => .cont ⟨st.rjss, st.diagnet ++ [d], st.depth + 1 - 1, recordName st "dlsip"⟩
      | .err e => .fail e
      | .panic => .panicked := rfl

theorem stepEv_empty_other (name : String) (attrs : List AttrItem) (st : WalkSt)
    (hr : name ≠ "rjs") (hd : name ≠ "dlsip") :
    stepEv (.empty name attrs) st =
      .cont { st with path := recordName st name, depth := st.depth + 1 - 1 } := by
  simp only [stepEv, if_neg hr, if_neg hd]
  rfl

/-- Transition views of one loop iteration. -/
theorem walkAux_cont {ev : XmlEvent} {st st' : WalkSt} (rest : List XmlEvent)
    (h : stepEv ev st = .cont st') : walkAux (ev :: rest) st = walkAux rest st' := by
  simp only [walkAux_cons, h]

theorem walkAux_fail {ev : XmlEvent} {st : WalkSt} {e : Error} (rest : List XmlEvent)
    (h : stepEv ev st = .fail e) : walkAux (ev :: rest) st = .err e := by
  simp only [walkAux_cons, h]

theorem walkAux_stop {ev : XmlEvent} {st : WalkSt} {d : XmlData} (rest : List XmlEvent)
    (h : stepEv ev st = .stop d) : walkAux (ev :: rest) st = .ok d := by
  simp only [walkAux_cons, h]

/-- The walker appends exactly the per-event records, in order, when every
event of the stream is good. -/
theorem walkAux_good (evs : List XmlEvent) : ∀ st : WalkSt,
    evs.all goodEv = true → nestOk evs st.depth = true →
    walkAux evs st = .ok ⟨st.rjss ++ evs.filterMap rjsOf, st.diagnet ++ evs.filterMap dlsipOf⟩ := by
  induction evs with
  | nil => intro st _ _; simp
  | cons ev rest ih =>
    intro st hall hnest
    rw [List.all_cons, Bool.and_eq_true] at hall
    obtain ⟨hev, hrest⟩ := hall
    cases ev with
    | start name attrs =>
      rw [walkAux_cont rest (stepEv_start name attrs st),
        ih _ hrest (by simpa [nestOk] using hnest)]
      simp [rjsOf, dlsipOf]
    | endTag =>
      rw [nestOk, Bool.and_eq_true] at hnest
      rw [walkAux_cont rest (stepEv_endTag st), ih _ hrest hnest.2]
      simp [rjsOf, dlsipOf]
    | eof => simp [goodEv] at hev
    | readErr msg => simp [goodEv] at hev
    | other =>
      rw [walkAux_cont rest (stepEv_other st), ih _ hrest (by simpa [nestOk] using hnest)]
      simp [rjsOf, dlsipOf]
    | empty name attrs =>
      by_cases hr : name = "rjs"
      · subst hr
        simp only [goodEv, if_pos rfl] at hev
        cases hfa : Rjs.from_attributes attrs with
        | ok r =>
          have hstep : stepEv (.empty "rjs" attrs) st =
              .cont ⟨st.rjss ++ [r], st.diagnet, st.depth + 1 - 1, recordName st "rjs"⟩ := by
            simp only [stepEv_empty_rjs, hfa, add_location_data_ok]
          rw [walkAux_cont rest hstep, ih _ hrest (by simpa [nestOk] using hnest)]
          simp [rjsOf, dlsipOf, hfa, PResult.toOption]
        | err e => rw [hfa] at hev; simp [PResult.isOk] at hev
        | panic => rw [hfa] at hev; simp [PResult.isOk] at hev
      · by_cases hd : name = "dlsip"
        · subst hd
          simp only [goodEv, if_neg (by decide : ¬("dlsip" : String) = "rjs"),
            if_pos rfl] at hev
          cases hfa : DlsIP.from_attributes attrs with
          | ok d =>
            have hstep : stepEv (.empty "dlsip" attrs) st =
                .cont ⟨st.rjss, st.diagnet ++ [d], st.depth + 1 - 1, recordName st "dlsip"⟩ := by
              simp only [stepEv_empty_dlsip, hfa, add_location_data_ok]
            rw [walkAux_cont rest hstep, ih _ hrest (by simpa [nestOk] using hnest)]
            simp [rjsOf, dlsipOf, hfa, PResult.toOption]
          | err e => rw [hfa] at hev; simp [PResult.isOk] at hev
          | panic => rw [hfa] at hev; simp [PResult.isOk] at hev
        · rw [walkAux_cont rest (stepEv_empty_other name attrs st hr hd),
            ih _ hrest (by simpa [nestOk] using hnest)]
          simp [rjsOf, dlsipOf, hr, hd]

/-! ## Concrete attribute sets used as test inputs -/

/-- Attributes of `<rjs prejezd="P1" ip="10.0.0.1" port="5000" type="A"/>`. -/
def rjsAttrsA : List AttrItem :=
  [.ok "prejezd" (asciiBytes "P1"), .ok "ip" (asciiBytes "10.0.0.1"),
   .ok "port" (asciiBytes "5000"), .ok "type" (asciiBytes "A")]

/-- Attributes of `<rjs prejezd="P2" ip="::1" port="5001" type="B"/>`. -/
def rjsAttrsB : List AttrItem :=
  [.ok "prejezd" (asciiBytes "P2"), .ok "ip" (asciiBytes "::1"),
   .ok "port" (asciiBytes "5001"), .ok "type" (asciiBytes "B")]

/-- Attributes of `<dlsip source="STATIC" ip="10.0.0.2"/>`. -/
def dlsipAttrsStatic : List AttrItem :=
  [.ok "source" (asciiBytes "STATIC"), .ok "ip" (asciiBytes "10.0.0.2")]

/-- An interleaved document: `<root>` with rjs, dlsip, rjs self-closing
children. -/
def evsInterleaved : List XmlEvent :=
  [.start "root" [], .empty "rjs" rjsAttrsA, .empty "dlsip" dlsipAttrsStatic,
   .empty "rjs" rjsAttrsB, .endTag]

/-- C1: for a document whose self-closing `rjs` / `dlsip` elements all carry
valid required attributes (and whose nesting is well formed), parsing
succeeds and returns exactly the per-kind record sequences in document order;
the interleaving of the two kinds affects neither sequence, each being the
`filterMap` of its own kind's builder over the one event list. -/
theorem read_from_xml_all_valid (evs : List XmlEvent)
    (hgood : evs.all goodEv = true) (hnest : nestOk evs 0 = true) :
    XmlData.read_from_xml evs = .ok ⟨evs.filterMap rjsOf, evs.filterMap dlsipOf⟩ := by
  have h := walkAux_good evs initWalkSt hgood hnest
  simpa [XmlData.read_from_xml, initWalkSt] using h

/-- Witness for C1 on a concrete interleaved document with two `rjs` and one
`dlsip` elements. -/
theorem read_from_xml_all_valid_witness :
    XmlData.read_from_xml evsInterleaved =
      .ok ⟨[⟨"P1", .v4 10 0 0 1, 5000, "A"⟩, ⟨"P2", .v6 [0, 0, 0, 0, 0, 0, 0, 1], 5001, "B"⟩],
           [.static (.v4 10 0 0 2)]⟩ :=
  read_from_xml_all_valid evsInterleaved (by decide) (by decide)

/-! ## C2: first-error semantics -/

/-- The walker state after a prefix of events that all continue the loop
(`none` when some event of the prefix stops, fails or panics). -/
def runPre : List XmlEvent → WalkSt → Option WalkSt
  | [], st => some st
  | ev :: rest, st =>
    match stepEv ev st with
    | .cont st' => runPre rest st'
    | _ => none

theorem walkAux_panic {ev : XmlEvent} {st : WalkSt} (rest : List XmlEvent)
    (h : stepEv ev st = .panicked) : walkAux (ev :: rest) st = .panic := by
  simp only [walkAux_cons, h]

theorem walkAux_err_first (evs : List XmlEvent) : ∀ (st : WalkSt) (e : Error),
    walkAux evs st = .err e →
    ∃ pre ev post st', evs = pre ++ ev :: post ∧ runPre pre st = some st' ∧
      stepEv ev st' = .fail e := by
  induction evs with
  | nil => intro st e h; simp [walkAux] at h
  | cons ev rest ih =>
    intro st e h
    cases hstep : stepEv ev st with
    | cont st' =>
      rw [walkAux_cont rest hstep] at h
      obtain ⟨pre, ev', post, st'', hsplit, hpre, hfail⟩ := ih st' e h
      exact ⟨ev :: pre, ev', post, st'', by simp [hsplit],
        by simp [runPre, hstep, hpre], hfail⟩
    | stop d => rw [walkAux_stop rest hstep] at h; simp at h
    | fail e' =>
      rw [walkAux_fail rest hstep] at h
      injection h with h'
      subst h'
      exact ⟨[], ev, rest, st, rfl, rfl, hstep⟩
    | panicked => rw [walkAux_panic rest hstep] at h; simp at h

/-- C2: when `read_from_xml` returns an error, the error is the one produced
by the first event whose processing fails — every earlier event continued the
loop — and the returned value carries no records at all (an `Error` is the
entire result; the accumulated `rjss` / `diagnet` of the aborted state are
discarded). -/
theorem read_from_xml_first_error (evs : List XmlEvent) (e : Error)
    (h : XmlData.read_from_xml evs = .err e) :
    ∃ pre ev post st', evs = pre ++ ev :: post ∧ runPre pre initWalkSt = some st' ∧
      stepEv ev st' = .fail e :=
  walkAux_err_first evs initWalkSt e h

/-- Witness for C2: a document whose only element is an invalid `<dlsip/>`. -/
theorem read_from_xml_first_error_witness :
    ∃ pre ev post st', ([.empty "dlsip" []] : List XmlEvent) = pre ++ ev :: post ∧
      runPre pre initWalkSt = some st' ∧
      stepEv ev st' = .fail (.configError (.missingAttribute "source") "dlsip") :=
  read_from_xml_first_error [.empty "dlsip" []]
    (.configError (.missingAttribute "source") "dlsip") (by decide)

/-! ## C10: only self-closing elements are dispatched -/

/-- An event whose loop arm neither dispatches a record builder nor fails:
start tags, end tags, `Eof` and the ignored event kinds — everything but a
self-closing element and a reader error. -/
def passiveEv : XmlEvent → Bool
  | .empty _ _ => false
  | .readErr _ => false
  | _ => true

theorem walkAux_passive (evs : List XmlEvent) : ∀ st : WalkSt,
    evs.all passiveEv = true → walkAux evs st = .ok ⟨st.rjss, st.diagnet⟩ := by
  induction evs with
  | nil => intro st _; simp
  | cons ev rest ih =>
    intro st hall
    rw [List.all_cons, Bool.and_eq_true] at hall
    obtain ⟨hev, hrest⟩ := hall
    cases ev with
    | start name attrs => rw [walkAux_cont rest (stepEv_start name attrs st)]; exact ih _ hrest
    | endTag => rw [walkAux_cont rest (stepEv_endTag st)]; exact ih _ hrest
    | eof => rw [walkAux_stop rest (stepEv_eof st)]
    | readErr msg => simp [passiveEv] at hev
    | empty name attrs => simp [passiveEv] at hev
    | other => rw [walkAux_cont rest (stepEv_other st)]; exact ih _ hrest

/-- C10: a document with no self-closing element — in particular one whose
`<rjs>` is written as a separate start/end tag pair, with all required valid
attributes on the start tag — produces no record and no error; the same
attributes on a self-closing `<rjs/>` produce a record. -/
theorem start_rjs_not_dispatched :
    (∀ evs : List XmlEvent, evs.all passiveEv = true →
      XmlData.read_from_xml evs = .ok ⟨[], []⟩) ∧
    XmlData.read_from_xml [.start "rjs" rjsAttrsA, .endTag, .eof] = .ok ⟨[], []⟩ ∧
    XmlData.read_from_xml [.empty "rjs" rjsAttrsA, .eof] =
      .ok ⟨[⟨"P1", .v4 10 0 0 1, 5000, "A"⟩], []⟩ := by
  refine ⟨fun evs h => walkAux_passive evs initWalkSt h, ?_, ?_⟩
  · exact walkAux_passive _ initWalkSt (by decide)
  · decide

/-! ## C8: fixed ten-slot path tracking, graceful beyond depth 10 -/

@[simp] theorem add_location_data_config {α : Type} (e : ConfigError) (loc : String)
    (path : List (Option String)) :
    add_location_data (α := α) (.err (.configError e loc)) path =
      .err (.configError e (String.intercalate "/" (path.filterMap id))) := rfl

/-- The state change of a `Start` event. -/
def pushName (st : WalkSt) (name : String) : WalkSt :=
  { st with path := recordName st name, depth := st.depth + 1 }

/-- The walker state after a run of start tags with the given names. -/
def startsState : List String → WalkSt → WalkSt
  | [], st => st
  | n :: ns, st => startsState ns (pushName st n)

/-- The event list of a run of start tags. -/
def startEvents (ns : List String) : List XmlEvent :=
  ns.map (fun n => .start n [])

theorem runPre_starts (ns : List String) : ∀ st : WalkSt,
    runPre (startEvents ns) st = some (startsState ns st) := by
  induction ns with
  | nil => intro st; rfl
  | cons n ns ih =>
    intro st
    show runPre (.start n [] :: startEvents ns) st = _
    rw [runPre, stepEv_start]
    exact ih (pushName st n)

theorem runPre_append (pre : List XmlEvent) : ∀ (st st' : WalkSt) (rest : List XmlEvent),
    runPre pre st = some st' → runPre (pre ++ rest) st = runPre rest st' := by
  induction pre with
  | nil => intro st st' rest h; injection h with h; subst h; rfl
  | cons ev pre ih =>
    intro st st' rest h
    rw [runPre] at h
    rw [List.cons_append, runPre]
    cases hstep : stepEv ev st with
    | cont st1 => rw [hstep] at h; exact ih st1 st' rest h
    | stop d => rw [hstep] at h; simp at h
    | fail e => rw [hstep] at h; simp at h
    | panicked => rw [hstep] at h; simp at h

theorem walkAux_after_pre (pre : List XmlEvent) : ∀ (st st' : WalkSt) (rest : List XmlEvent),
    runPre pre st = some st' → walkAux (pre ++ rest) st = walkAux rest st' := by
  induction pre with
  | nil => intro st st' rest h; injection h with h; subst h; rfl
  | cons ev pre ih =>
    intro st st' rest h
    rw [runPre] at h
    cases hstep : stepEv ev st with
    | cont st1 =>
      rw [hstep] at h
      rw [List.cons_append, walkAux_cont (pre ++ rest) hstep]
      exact ih st1 st' rest h
    | stop d => rw [hstep] at h; simp at h
    | fail e => rw [hstep] at h; simp at h
    | panicked => rw [hstep] at h; simp at h

theorem startsState_append (ns : List String) : ∀ (n : String) (st : WalkSt),
    startsState (ns ++ [n]) st = pushName (startsState ns st) n := by
  induction ns with
  | nil => intro n st; rfl
  | cons m ns ih => intro n st; exact ih n (pushName st m)

/-- Setting the slot just past a prefix. -/
theorem set_append_length {α : Type} (l1 : List α) : ∀ (l2 : List α) (v : α),
    (l1 ++ l2).set l1.length v = l1 ++ l2.set 0 v := by
  induction l1 with
  | nil => intro l2 v; rfl
  | cons a l1 ih => intro l2 v; simp [List.set, ih]

/-- After `ns` start tags from the initial state: no records, depth is the
number of open elements, and the path array holds the first ten names
followed by empty slots — names at depth 10 or beyond are not tracked. -/
theorem startsState_init (ns : List String) :
    (startsState ns initWalkSt).rjss = [] ∧ (startsState ns initWalkSt).diagnet = [] ∧
    (startsState ns initWalkSt).depth = ns.length ∧
    (startsState ns initWalkSt).path =
      (ns.take 10).map some ++ List.replicate (10 - ns.length) none := by
  induction ns using List.reverseRecOn with
  | nil => refine ⟨rfl, rfl, rfl, ?_⟩; rfl
  | append_singleton ns n ih =>
    obtain ⟨h1, h2, h3, h4⟩ := ih
    rw [startsState_append]
    refine ⟨h1, h2, ?_, ?_⟩
    · show (startsState ns initWalkSt).depth + 1 = _
      rw [h3]; simp
    · show recordName (startsState ns initWalkSt) n = _
      rw [recordName, h3, h4]
      have hlen : ((ns.take 10).map some ++
          List.replicate (10 - ns.length) none).length = 10 := by
        simp; omega
      by_cases hd : ns.length < 10
      · rw [if_pos (by rw [hlen]; exact hd)]
        rw [List.take_of_length_le (le_of_lt hd), List.take_of_length_le (by simp; omega)]
        have hrep : List.replicate (10 - ns.length) (none : Option String) =
            none :: List.replicate (10 - ns.length - 1) none := by
          rw [← List.replicate_succ]
          congr 1
          omega
        calc (ns.map some ++ List.replicate (10 - ns.length) none).set ns.length (some n)
            = (ns.map some ++ (List.replicate (10 - ns.length) none).set 0 (some n)) := by
              rw [← set_append_length]; simp
          _ = (ns ++ [n]).map some ++ List.replicate (10 - (ns ++ [n]).length) none := by
              rw [hrep]; simp; omega
      · rw [if_neg (by rw [hlen]; omega)]
        have : 10 - ns.length = 0 := by omega
        rw [List.take_append_of_le_length (by omega), this]
        simp
        omega

theorem filterMap_id_map_some {α : Type} (l : List α) : (l.map some).filterMap id = l := by
  induction l with
  | nil => rfl
  | cons a l ih => simp [ih]

theorem runPre_ends (k : Nat) : ∀ st : WalkSt,
    ∃ st', runPre (List.replicate k .endTag) st = some st' ∧
      st'.depth = st.depth - k ∧ st'.path.length = st.path.length ∧
      st'.rjss = st.rjss ∧ st'.diagnet = st.diagnet := by
  induction k with
  | zero => intro st; exact ⟨st, rfl, by simp, rfl, rfl, rfl⟩
  | succ k ih =>
    intro st
    rw [List.replicate_succ]
    obtain ⟨st', h1, h2, h3, h4, h5⟩ := ih { st with depth := st.depth - 1, path := clearSlot st }
    refine ⟨st', ?_, ?_, ?_, h4, h5⟩
    · rw [runPre, stepEv_endTag]; exact h1
    · rw [h2]; show st.depth - 1 - k = _; omega
    · rw [h3]; show (clearSlot st).length = _; rw [clearSlot]; split <;> simp

/-- C8: in a document nested `ns.length ≥ 10` levels deep, (1) an invalid
self-closing `<rjs/>` inside the deep nesting fails with its error located at
the `/`-join of only the first ten open names — deeper levels and the element
itself are silently untracked, no out-of-bounds access occurs; (2) a fully
balanced deep document parses to the empty result without crashing; and
(3) after all the matching end tags the depth counter has retreated to 0 and
the path array still has exactly its ten slots. -/
theorem deep_nesting_graceful (ns : List String) (h : 10 ≤ ns.length) :
    XmlData.read_from_xml (startEvents ns ++ [.empty "rjs" []]) =
      .err (.configError (.missingAttribute "ip") (String.intercalate "/" (ns.take 10))) ∧
    XmlData.read_from_xml (startEvents ns ++ (List.replicate ns.length .endTag ++ [.eof])) =
      .ok ⟨[], []⟩ ∧
    ∃ st', runPre (startEvents ns ++ List.replicate ns.length .endTag) initWalkSt = some st' ∧
      st'.depth = 0 ∧ st'.path.length = 10 := by
  obtain ⟨h1, h2, h3, h4⟩ := startsState_init ns
  have hplen : (startsState ns initWalkSt).path.length = 10 := by
    rw [h4]; simp; omega
  refine ⟨?_, ?_, ?_⟩
  · rw [XmlData.read_from_xml,
      walkAux_after_pre _ _ _ _ (runPre_starts ns initWalkSt)]
    have hrec : recordName (startsState ns initWalkSt) "rjs" =
        (startsState ns initWalkSt).path := by
      rw [recordName, if_neg]
      rw [hplen, h3]
      omega
    have hstep : stepEv (.empty "rjs" []) (startsState ns initWalkSt) =
        .fail (.configError (.missingAttribute "ip")
          (String.intercalate "/" (ns.take 10))) := by
      rw [stepEv_empty_rjs, hrec]
      have hra : Rjs.from_attributes [] =
          .err (.configError (.missingAttribute "ip") "unknown location") := rfl
      rw [hra, add_location_data_config, h4]
      have hz : 10 - ns.length = 0 := by omega
      rw [hz, List.replicate_zero, List.append_nil, filterMap_id_map_some]
    rw [walkAux_fail [] hstep]
  · apply walkAux_passive
    rw [List.all_eq_true]
    intro e he
    rw [List.mem_append] at he
    rcases he with he | he
    · rw [startEvents, List.mem_map] at he
      obtain ⟨n, _, rfl⟩ := he
      rfl
    · rw [List.mem_append] at he
      rcases he with he | he
      · rw [List.eq_of_mem_replicate he]; rfl
      · simp at he; rw [he]; rfl
  · obtain ⟨st', he1, he2, he3, _, _⟩ := runPre_ends ns.length (startsState ns initWalkSt)
    refine ⟨st', ?_, ?_, ?_⟩
    · rw [runPre_append _ _ _ _ (runPre_starts ns initWalkSt)]; exact he1
    · rw [he2, h3]; omega
    · rw [he3, hplen]

/-! ## C6 / C9: attribute lookup -/

/-- In the spec's words: the value of the first attribute, in document order,
whose key exactly equals `name` (malformed iterator items carry no key). -/
def firstMatch (attrs : List AttrItem) (name : String) : Option (List Nat) :=
  ((attrs.filterMap fun i =>
      match i with
      | .ok k v => some (k, v)
      | .err _ => none).find? (fun kv => kv.1 == name)).map (·.2)

/-- C6 (amended): `find_attribute` returns the first exactly-matching
attribute's value decoded as UTF-8; it fails with `MissingAttribute{name}`
exactly when no attribute matches; when the first matching attribute's bytes
are *not* valid UTF-8 it panics (a hard process failure), rather than
returning a `MissingAttribute` error. -/
theorem find_attribute_spec (attrs : List AttrItem) (name : String) :
    find_attribute attrs name =
      match firstMatch attrs name with
      | some v =>
        match utf8Decode v with
        | some s => .ok s
        | none => .panic
      | none => .err (ConfigError.missingAttribute name).toError := by
  suffices h : (attrs.findSome? fun i =>
      match i with
      | AttrItem.ok key value => if key = name then some value else none
      | AttrItem.err _ => none) = firstMatch attrs name by
    rw [find_attribute, h]
  induction attrs with
  | nil => rfl
  | cons a rest ih =>
    cases a with
    | err m => simpa [List.findSome?_cons, firstMatch] using ih
    | ok k v =>
      by_cases hk : k = name
      · subst hk; simp [List.findSome?_cons, firstMatch]
      · simpa [List.findSome?_cons, firstMatch, hk] using ih

/-- C6 counterexample: a matching attribute whose value bytes are not valid
UTF-8 (the single byte `0xFF`) makes `find_attribute` panic — it does *not*
fail with `MissingAttribute` as the claim states. -/
theorem find_attribute_invalid_utf8_panics :
    find_attribute [.ok "k" [0xFF]] "k" = .panic ∧
    (PResult.panic : PResult String) ≠ .err (ConfigError.missingAttribute "k").toError := by
  decide

/-- C9: a malformed item of the attribute iterator is silently skipped — it
neither fails the lookup nor stops the scan, and a later well-formed match is
still returned. -/
theorem find_attribute_skips_malformed :
    (∀ (msg : String) (rest : List AttrItem) (name : String),
      find_attribute (.err msg :: rest) name = find_attribute rest name) ∧
    find_attribute [.err "garbage", .ok "k" (asciiBytes "v")] "k" = .ok "v" := by
  exact ⟨fun msg rest name => rfl, by decide⟩

/-! ## C3 / C4: the record builders -/

/-- C3: variant selection of `DlsIP::from_attributes`. With `source="HOSTS"`
the `connection` value maps `"P2P"`/`"BROADCAST"` to the enum and anything
else to `InvalidValue{connection}` — the connection check happens before the
alias extraction, so an invalid or missing connection decides the outcome
regardless of `alias`; with `source="STATIC"` the `ip` value is parsed as an
IP address into `Static{ip}`; any other source value is
`InvalidValue{source}`. -/
theorem dlsip_from_attributes_spec (attrs : List AttrItem) :
    (∀ a, find_attribute attrs "source" = .ok "HOSTS" →
      find_attribute attrs "connection" = .ok "P2P" →
      find_attribute attrs "alias" = .ok a →
      DlsIP.from_attributes attrs = .ok (.hosts a .p2p)) ∧
    (∀ a, find_attribute attrs "source" = .ok "HOSTS" →
      find_attribute attrs "connection" = .ok "BROADCAST" →
      find_attribute attrs "alias" = .ok a →
      DlsIP.from_attributes attrs = .ok (.hosts a .broadcast)) ∧
    (∀ c, find_attribute attrs "source" = .ok "HOSTS" →
      find_attribute attrs "connection" = .ok c →
      c ≠ "P2P" → c ≠ "BROADCAST" →
      DlsIP.from_attributes attrs = .err (ConfigError.invalidValue "connection" c).toError) ∧
    (∀ e, find_attribute attrs "source" = .ok "HOSTS" →
      find_attribute attrs "connection" = .err e →
      DlsIP.from_attributes attrs = .err e) ∧
    (∀ s addr, find_attribute attrs "source" = .ok "STATIC" →
      find_attribute attrs "ip" = .ok s → parseIpAddr s = some addr →
      DlsIP.from_attributes attrs = .ok (.static addr)) ∧
    (∀ s, find_attribute attrs "source" = .ok "STATIC" →
      find_attribute attrs "ip" = .ok s → parseIpAddr s = none →
      DlsIP.from_attributes attrs =
        .err (ConfigError.parseError s "IpAddr" "invalid IP address syntax").toError) ∧
    (∀ s, find_attribute attrs "source" = .ok s → s ≠ "HOSTS" → s ≠ "STATIC" →
      DlsIP.from_attributes attrs = .err (ConfigError.invalidValue "source" s).toError) := by
  refine ⟨?_, ?_, ?_, ?_, ?_, ?_, ?_⟩
  · intro a hS hC hA
    rw [DlsIP.from_attributes, hS]
    simp only [PResult.bind_ok]
    rw [hC]
    simp only [PResult.bind_ok]
    rw [hA]
    rfl
  · intro a hS hC hA
    rw [DlsIP.from_attributes, hS]
    simp only [PResult.bind_ok]
    rw [hC]
    simp only [PResult.bind_ok]
    rw [hA]
    rfl
  · intro c hS hC hc1 hc2
    rw [DlsIP.from_attributes, hS]
    simp only [PResult.bind_ok]
    rw [hC]
    simp only [PResult.bind_ok]
    rfl
  · intro e hS hC
    rw [DlsIP.from_attributes, hS]
    simp only [PResult.bind_ok]
    rw [hC]
    rfl
  · intro s addr hS hIp hp
    rw [DlsIP.from_attributes, hS]
    simp only [PResult.bind_ok]
    rw [hIp]
    simp only [PResult.bind_ok]
    rw [parseIpAddrConfig, hp]
    rfl
  · intro s hS hIp hp
    rw [DlsIP.from_attributes, hS]
    simp only [PResult.bind_ok]
    rw [hIp]
    simp only [PResult.bind_ok]
    rw [parseIpAddrConfig, hp]
    rfl
  · intro s hS h1 h2
    rw [DlsIP.from_attributes, hS]
    simp only [PResult.bind_ok]

/-- Witness for C3 on concrete attribute sets: an invalid connection decides
the outcome although `alias` is also missing (connection before alias). -/
theorem dlsip_from_attributes_spec_witness :
    DlsIP.from_attributes [.ok "source" (asciiBytes "HOSTS"),
        .ok "connection" (asciiBytes "WIFI")] =
      .err (ConfigError.invalidValue "connection" "WIFI").toError :=
  (dlsip_from_attributes_spec _).2.2.1 "WIFI" (by decide) (by decide)
    (by decide) (by decide)

/-- C4 (amended): `Rjs::from_attributes` succeeds only if all extraction and
parse steps succeed, and otherwise propagates the first error in the *actual*
evaluation order of the Rust function: extract `ip`, extract `port`, extract
`prejezd`, parse `ip`, parse `port`, extract `type`. In particular, when both
`prejezd` and `ip` are missing the reported error names `ip`, not
`prejezd`. -/
theorem rjs_from_attributes_spec (attrs : List AttrItem) :
    (∀ e, find_attribute attrs "ip" = .err e → Rjs.from_attributes attrs = .err e) ∧
    (∀ i e, find_attribute attrs "ip" = .ok i → find_attribute attrs "port" = .err e →
      Rjs.from_attributes attrs = .err e) ∧
    (∀ i p e, find_attribute attrs "ip" = .ok i → find_attribute attrs "port" = .ok p →
      find_attribute attrs "prejezd" = .err e →
      Rjs.from_attributes attrs = .err e) ∧
    (∀ i p pr, find_attribute attrs "ip" = .ok i → find_attribute attrs "port" = .ok p →
      find_attribute attrs "prejezd" = .ok pr → parseIpAddr i = none →
      Rjs.from_attributes attrs =
        .err (ConfigError.parseError i "IpAddr" "invalid IP address syntax").toError) ∧
    (∀ i p pr a msg, find_attribute attrs "ip" = .ok i → find_attribute attrs "port" = .ok p →
      find_attribute attrs "prejezd" = .ok pr → parseIpAddr i = some a →
      parseU16 p = .error msg →
      Rjs.from_attributes attrs = .err (ConfigError.parseError p "u16" msg).toError) ∧
    (∀ i p pr a n e, find_attribute attrs "ip" = .ok i → find_attribute attrs "port" = .ok p →
      find_attribute attrs "prejezd" = .ok pr → parseIpAddr i = some a →
      parseU16 p = .ok n → find_attribute attrs "type" = .err e →
      Rjs.from_attributes attrs = .err e) ∧
    (∀ i p pr a n t, find_attribute attrs "ip" = .ok i → find_attribute attrs "port" = .ok p →
      find_attribute attrs "prejezd" = .ok pr → parseIpAddr i = some a →
      parseU16 p = .ok n → find_attribute attrs "type" = .ok t →
      Rjs.from_attributes attrs = .ok ⟨pr, a, n, t⟩) := by
  refine ⟨?_, ?_, ?_, ?_, ?_, ?_, ?_⟩
  · intro e h1
    rw [Rjs.from_attributes, h1]
    rfl
  · intro i e h1 h2
    rw [Rjs.from_attributes, h1]
    simp only [PResult.bind_ok]
    rw [h2]
    rfl
  · intro i p e h1 h2 h3
    rw [Rjs.from_attributes, h1]
    simp only [PResult.bind_ok]
    rw [h2]
    simp only [PResult.bind_ok]
    rw [h3]
    rfl
  · intro i p pr h1 h2 h3 h4
    rw [Rjs.from_attributes, h1]
    simp only [PResult.bind_ok]
    rw [h2]
    simp only [PResult.bind_ok]
    rw [h3]
    simp only [PResult.bind_ok]
    rw [parseIpAddrConfig, h4]
    rfl
  · intro i p pr a msg h1 h2 h3 h4 h5
    rw [Rjs.from_attributes, h1]
    simp only [PResult.bind_ok]
    rw [h2]
    simp only [PResult.bind_ok]
    rw [h3]
    simp only [PResult.bind_ok]
    rw [parseIpAddrConfig, h4]
    simp only [PResult.bind_ok]
    rw [parseU16Config, h5]
    rfl
  · intro i p pr a n e h1 h2 h3 h4 h5 h6
    rw [Rjs.from_attributes, h1]
    simp only [PResult.bind_ok]
    rw [h2]
    simp only [PResult.bind_ok]
    rw [h3]
    simp only [PResult.bind_ok]
    rw [parseIpAddrConfig, h4]
    simp only [PResult.bind_ok]
    rw [parseU16Config, h5]
    simp only [PResult.bind_ok]
    rw [h6]
    rfl
  · intro i p pr a n t h1 h2 h3 h4 h5 h6
    rw [Rjs.from_attributes, h1]
    simp only [PResult.bind_ok]
    rw [h2]
    simp only [PResult.bind_ok]
    rw [h3]
    simp only [PResult.bind_ok]
    rw [parseIpAddrConfig, h4]
    simp only [PResult.bind_ok]
    rw [parseU16Config, h5]
    simp only [PResult.bind_ok]
    rw [h6]
    rfl

/-- C4 counterexample: with *all* attributes missing — in particular both
`prejezd` and `ip` — the error names `ip` (the first extraction the code
performs), not `prejezd` as the claimed evaluation order would have it. -/
theorem rjs_from_attributes_order_cex :
    Rjs.from_attributes [] = .err (ConfigError.missingAttribute "ip").toError ∧
    (ConfigError.missingAttribute "ip").toError ≠
      (ConfigError.missingAttribute "prejezd").toError := by
  decide

/-- Witness for C4 on a concrete attribute set: `port` missing while `prejezd`
and `type` are present — the error names `port` (extraction order ip, port
before the struct literal's fields). -/
theorem rjs_from_attributes_spec_witness :
    Rjs.from_attributes [.ok "prejezd" (asciiBytes "P1"), .ok "ip" (asciiBytes "10.0.0.1"),
        .ok "type" (asciiBytes "A")] =
      .err (ConfigError.missingAttribute "port").toError :=
  (rjs_from_attributes_spec _).2.1 "10.0.0.1" (ConfigError.missingAttribute "port").toError
    (by decide) (by decide)

/-! ## C7: the typed-value parser -/

theorem parseU16Go_le (cs : List Char) : ∀ acc n, acc ≤ 65535 →
    parseU16Go cs acc = .ok n → n ≤ 65535 := by
  induction cs with
  | nil =>
    intro acc n h1 h2
    rw [parseU16Go] at h2
    injection h2 with h
    omega
  | cons c rest ih =>
    intro acc n h1 h2
    rw [parseU16Go] at h2
    by_cases hd : c.isDigit
    · rw [if_pos hd] at h2
      by_cases hov : acc * 10 + (c.toNat - 48) > 65535
      · rw [if_pos hov] at h2
        exact absurd h2 (by simp)
      · rw [if_neg hov] at h2
        exact ih _ n (by omega) h2
    · rw [if_neg hd] at h2
      exact absurd h2 (by simp)

/-- Attributes of `<rjs prejezd="P1" ip="10.0.0.1" port="70000" type="A"/>`
(port out of 16-bit range). -/
def rjsAttrsPort70000 : List AttrItem :=
  [.ok "prejezd" (asciiBytes "P1"), .ok "ip" (asciiBytes "10.0.0.1"),
   .ok "port" (asciiBytes "70000"), .ok "type" (asciiBytes "A")]

/-- C7: the typed-value parser (`parse!`) fails on malformed / out-of-range
input with a `ParseError` carrying the original string as `input`, the target
type's name (`"u16"` / `"IpAddr"`) as `to` and the underlying diagnostic as
`cause`; every successful `u16` parse is ≤ 65535; an `<rjs>` with
`port="70000"` fails with exactly that parse error; the decimal bounds `0`
and `65535` and both IPv4 and IPv6 textual forms parse successfully. -/
theorem parse_typed_value_spec :
    (∀ s e, parseU16Config s = .err e →
      ∃ cause, e = (ConfigError.parseError s "u16" cause).toError) ∧
    (∀ s e, parseIpAddrConfig s = .err e →
      e = (ConfigError.parseError s "IpAddr" "invalid IP address syntax").toError) ∧
    (∀ s n, parseU16Config s = .ok n → n ≤ 65535) ∧
    Rjs.from_attributes rjsAttrsPort70000 =
      .err (ConfigError.parseError "70000" "u16"
        "number too large to fit in target type").toError ∧
    parseU16Config "0" = .ok 0 ∧ parseU16Config "65535" = .ok 65535 ∧
    parseIpAddrConfig "10.0.0.1" = .ok (.v4 10 0 0 1) ∧
    parseIpAddrConfig "2001:db8::1" = .ok (.v6 [0x2001, 0xdb8, 0, 0, 0, 0, 0, 1]) ∧
    parseIpAddrConfig "::1" = .ok (.v6 [0, 0, 0, 0, 0, 0, 0, 1]) ∧
    parseIpAddrConfig "10.0.0.1x" =
      .err (ConfigError.parseError "10.0.0.1x" "IpAddr" "invalid IP address syntax").toError := by
  refine ⟨?_, ?_, ?_, by decide, by decide, by decide, by decide, by decide, by decide, by decide⟩
  · intro s e h
    cases hp : parseU16 s with
    | ok n =>
      simp only [parseU16Config, hp] at h
      exact absurd h (by simp)
    | error msg =>
      simp only [parseU16Config, hp] at h
      injection h with h
      exact ⟨msg, h.symm⟩
  · intro s e h
    cases hp : parseIpAddr s with
    | some a =>
      simp only [parseIpAddrConfig, hp] at h
      exact absurd h (by simp)
    | none =>
      simp only [parseIpAddrConfig, hp] at h
      injection h with h
      exact h.symm
  · intro s n h
    cases hp : parseU16 s with
    | error msg =>
      simp only [parseU16Config, hp] at h
      exact absurd h (by simp)
    | ok m =>
      simp only [parseU16Config, hp] at h
      injection h with h
      subst h
      rw [parseU16] at hp
      by_cases he : s.toList.isEmpty
      · rw [if_pos he] at hp; exact absurd hp (by simp)
      · rw [if_neg he] at hp
        set ds := match s.toList with
          | '+' :: rest => rest
          | _ => s.toList with hds
        by_cases hde : ds.isEmpty
        · rw [if_pos hde] at hp; exact absurd hp (by simp)
        · rw [if_neg hde] at hp
          exact parseU16Go_le ds 0 m (by omega) hp

/-- Witness for C7: the out-of-range port string `"70000"`. -/
theorem parse_typed_value_spec_witness :
    ∃ cause, (ConfigError.parseError "70000" "u16"
        "number too large to fit in target type").toError =
      (ConfigError.parseError "70000" "u16" cause).toError :=
  parse_typed_value_spec.1 "70000"
    (ConfigError.parseError "70000" "u16" "number too large to fit in target type").toError
    (by decide)

/-! ## C5: location stamping of dispatch errors -/

/-- The event stream of
`<root><a><rjs prejezd="P1" ip="10.0.0.1" port="5000" type="A"/></a><dlsip/></root>`
up to its failing `<dlsip/>` element. -/
def evsStalePath : List XmlEvent :=
  [.start "root" [], .start "a" [], .empty "rjs" rjsAttrsA, .endTag, .empty "dlsip" []]

/-- C5 exhibit (code bug): the invalid `<dlsip/>` has ancestor chain
`root` and is itself `dlsip`, so the claimed location is `root/dlsip` — but
the code reports `root/dlsip/rjs`. The `Empty` arm decrements the depth
without clearing the slot it wrote, so the name of the earlier, deeper,
already-closed `<rjs/>` is still recorded at slot 2 and `add_location_data`
joins it into the path. -/
theorem stale_path_segment_bug :
    XmlData.read_from_xml evsStalePath =
      .err (.configError (.missingAttribute "source") "root/dlsip/rjs") ∧
    "root/dlsip/rjs" ≠ "root/dlsip" := by decide

/-- Eleven nested element names. -/
def ns11 : List String := ["r", "a", "b", "c", "d", "e", "f", "g", "h", "i", "k"]

/-- Witness for C8 at a concrete document nested eleven levels deep: the
location names only the first ten levels. -/
theorem deep_nesting_graceful_witness :
    XmlData.read_from_xml (startEvents ns11 ++ [.empty "rjs" []]) =
      .err (.configError (.missingAttribute "ip") "r/a/b/c/d/e/f/g/h/i") ∧
    XmlData.read_from_xml (startEvents ns11 ++ (List.replicate 11 .endTag ++ [.eof])) =
      .ok ⟨[], []⟩ ∧
    (∃ st', runPre (startEvents ns11 ++ List.replicate 11 .endTag) initWalkSt = some st' ∧
      st'.depth = 0 ∧ st'.path.length = 10) :=
  deep_nesting_graceful ns11 (by decide)
